import Mathlib

/-!
Shallow embedding of the two components of this repository fragment:

1. The Service Bus message-sender sample (`sendMessages.ts`, function `main`):
   a loop over a fixed list of scientist records that builds a message per
   record and awaits a `sender.send` call for each, with
   `try { loop; queueClient.close() } finally { sbClient.close() }`.
   We model the run as a trace of events (send / queue-close / connection-close)
   driven by a failure oracle `fail : Nat → Bool` saying which send call,
   by zero-based index, rejects.

2. The blob-storage `LeaseClient` class: a handle holding `_leaseId`, `_url`
   and `_containerOrBlobOperation` (the Container or Blob operation surface,
   chosen once in the constructor by an `instanceof` check), with five
   operations that build a forwarded request from the handle's fields and the
   per-call options. Remote calls are modelled by an oracle returning
   `Except`; only `chanageLease` (the source's spelling) assigns state, and
   only after its remote call resolves.
-/

namespace SendMessages

/-- A record of the hardcoded `listOfScientists` array. -/
structure Scientist where
  name : String
  firstName : String
deriving DecidableEq, Repr

/-- The hardcoded list from the sample, in source order. -/
def listOfScientists : List Scientist :=
  [ { name := "Einstein", firstName := "Albert" },
    { name := "Heisenberg", firstName := "Werner" },
    { name := "Curie", firstName := "Marie" },
    { name := "Hawking", firstName := "Steven" },
    { name := "Newton", firstName := "Isaac" },
    { name := "Bohr", firstName := "Niels" },
    { name := "Faraday", firstName := "Michael" },
    { name := "Galilei", firstName := "Galileo" },
    { name := "Kepler", firstName := "Johannes" },
    { name := "Kopernikus", firstName := "Nikolaus" } ]

/-- Observable events of a run of `main`: a `sender.send` call with the
message's body and label, a `queueClient.close()` call, and a
`sbClient.close()` call. -/
inductive SBEvent
  | send (body : String) (label : String)
  | queueClose
  | connectionClose
deriving DecidableEq, Repr

/-- The message built for a scientist: body `${firstName} ${name}`,
label `"Scientist"`. -/
def msgEvent (s : Scientist) : SBEvent :=
  SBEvent.send (s.firstName ++ " " ++ s.name) "Scientist"

/-- The send loop of `main`: one send call per record in order, each awaited;
`fail index = true` means the send call at that zero-based index rejects, in
which case the loop aborts (the failing call itself did occur). Returns the
events emitted and whether the loop completed without error. -/
def sendAll : List Scientist → (Nat → Bool) → Nat → List SBEvent × Bool
  | [], _, _ => ([], true)
  | s :: rest, fail, index =>
    if fail index then ([msgEvent s], false)
    else
      let r := sendAll rest fail (index + 1)
      (msgEvent s :: r.1, r.2)

/-- The whole of `main`:
`try { sendLoop; await queueClient.close() } finally { await sbClient.close() }`.
On a successful loop the queue close runs, then the finally's connection
close; on a failed send the queue close (inside the `try`) is skipped and
only the finally's connection close runs, the error then propagating
(second component `false`). -/
def mainRun (scientists : List Scientist) (fail : Nat → Bool) :
    List SBEvent × Bool :=
  let r := sendAll scientists fail 0
  if r.2 then (r.1 ++ [SBEvent.queueClose, SBEvent.connectionClose], true)
  else (r.1 ++ [SBEvent.connectionClose], false)

/-- Count of occurrences of one event in a trace. -/
def countEvent (evs : List SBEvent) (e : SBEvent) : Nat :=
  (evs.filter (fun x => x = e)).length

/-- Whether an event is a send call. -/
def isSendEvent : SBEvent → Bool
  | SBEvent.send _ _ => true
  | _ => false

/-- Number of send calls in a trace. -/
def countSends (evs : List SBEvent) : Nat :=
  (evs.filter isSendEvent).length

theorem countEvent_append (a b : List SBEvent) (e : SBEvent) :
    countEvent (a ++ b) e = countEvent a e + countEvent b e := by
  simp [countEvent, List.filter_append]

theorem countSends_append (a b : List SBEvent) :
    countSends (a ++ b) = countSends a + countSends b := by
  simp [countSends, List.filter_append]

/-- The send loop emits only send events. -/
theorem sendAll_only_sends (l : List Scientist) (fail : Nat → Bool) (i : Nat) :
    ∀ e ∈ (sendAll l fail i).1, isSendEvent e = true := by
  induction l generalizing i with
  | nil => intro e he; simp [sendAll] at he
  | cons s rest ih =>
    intro e he
    by_cases h : fail i
    · simp [sendAll, h] at he
      subst he; rfl
    · simp [sendAll, h] at he
      rcases he with he | he
      · subst he; rfl
      · exact ih (i + 1) e he

theorem sendAll_count_close (l : List Scientist) (fail : Nat → Bool) (i : Nat) :
    countEvent (sendAll l fail i).1 SBEvent.queueClose = 0 ∧
    countEvent (sendAll l fail i).1 SBEvent.connectionClose = 0 := by
  constructor <;>
  · rw [countEvent, List.length_eq_zero, List.filter_eq_nil_iff]
    intro e he
    have := sendAll_only_sends l fail i e he
    cases e <;> simp_all [isSendEvent]

/-- If no send call fails, the loop emits one send per record, in order,
and reports success. -/
theorem sendAll_all_ok (l : List Scientist) (fail : Nat → Bool) (i : Nat)
    (h : ∀ j, j < l.length → fail (i + j) = false) :
    sendAll l fail i = (l.map msgEvent, true) := by
  induction l generalizing i with
  | nil => rfl
  | cons s rest ih =>
    have h0 : fail i = false := by
      have := h 0 (by simp)
      simpa using this
    have hrest : ∀ j, j < rest.length → fail (i + 1 + j) = false := by
      intro j hj
      have := h (j + 1) (by simpa using Nat.succ_lt_succ hj)
      simpa [Nat.add_assoc, Nat.add_comm 1 j] using this
    simp [sendAll, h0, ih (i + 1) hrest]

/-- If the first failing send call is at relative index `k`, the loop emits
the first `k + 1` sends (the failing call included) and reports failure. -/
theorem sendAll_first_fail (l : List Scientist) (fail : Nat → Bool) (i k : Nat)
    (hk : k < l.length)
    (hbefore : ∀ j, j < k → fail (i + j) = false)
    (hfail : fail (i + k) = true) :
    sendAll l fail i = ((l.take (k + 1)).map msgEvent, false) := by
  induction l generalizing i k with
  | nil => simp at hk
  | cons s rest ih =>
    cases k with
    | zero =>
      have h0 : fail i = true := by simpa using hfail
      simp [sendAll, h0]
    | succ k =>
      have h0 : fail i = false := by
        have := hbefore 0 (Nat.succ_pos k)
        simpa using this
      have hbefore1 : ∀ j, j < k → fail (i + 1 + j) = false := by
        intro j hj
        have := hbefore (j + 1) (Nat.succ_lt_succ hj)
        simpa [Nat.add_assoc, Nat.add_comm 1 j] using this
      have hfail1 : fail (i + 1 + k) = true := by
        simpa [Nat.add_assoc, Nat.add_comm 1 k] using hfail
      have hk1 : k < rest.length := Nat.lt_of_succ_lt_succ hk
      simp [sendAll, h0, ih (i + 1) k hk1 hbefore1 hfail1]

/-- Sends of a mapped record list count as sends. -/
theorem countSends_map (l : List Scientist) :
    countSends (l.map msgEvent) = l.length := by
  induction l with
  | nil => rfl
  | cons s rest ih => simp [countSends, msgEvent, isSendEvent] at ih ⊢; exact ih

/-- C3: for a fixed ordered list of records, the sender issues one awaited
send call per record, in list order (sequentiality is inherent in the trace
ordering): when no send fails the trace is exactly the N mapped sends (so
exactly N send calls) followed by the two closes and the run succeeds; and
when the first failing send call is at index `k`, the trace contains exactly
the first `k + 1` sends — calls `k+1..N` never occur — and the error
propagates to the caller (the run reports failure). -/
theorem sender_sequential_sends (l : List Scientist) (fail : Nat → Bool) :
    ((∀ j, j < l.length → fail j = false) →
      mainRun l fail =
        (l.map msgEvent ++ [SBEvent.queueClose, SBEvent.connectionClose], true) ∧
      countSends (mainRun l fail).1 = l.length) ∧
    (∀ k, k < l.length → (∀ j, j < k → fail j = false) → fail k = true →
      mainRun l fail =
        ((l.take (k + 1)).map msgEvent ++ [SBEvent.connectionClose], false) ∧
      countSends (mainRun l fail).1 = k + 1) := by
  constructor
  · intro h
    have hall : ∀ j, j < l.length → fail (0 + j) = false := by
      intro j hj; simpa using h j hj
    have hs := sendAll_all_ok l fail 0 hall
    have htrace : mainRun l fail =
        (l.map msgEvent ++ [SBEvent.queueClose, SBEvent.connectionClose], true) := by
      simp [mainRun, hs]
    refine ⟨htrace, ?_⟩
    rw [htrace, countSends_append, countSends_map]
    have hz : countSends [SBEvent.queueClose, SBEvent.connectionClose] = 0 := by
      decide
    omega
  · intro k hk hbefore hfail
    have hbefore0 : ∀ j, j < k → fail (0 + j) = false := by
      intro j hj; simpa using hbefore j hj
    have hfail0 : fail (0 + k) = true := by simpa using hfail
    have hs := sendAll_first_fail l fail 0 k hk hbefore0 hfail0
    have htrace : mainRun l fail =
        ((l.take (k + 1)).map msgEvent ++ [SBEvent.connectionClose], false) := by
      simp [mainRun, hs]
    refine ⟨htrace, ?_⟩
    have hlen : (l.take (k + 1)).length = k + 1 := by
      rw [List.length_take]
      omega
    rw [htrace, countSends_append, countSends_map, hlen]
    have hz : countSends [SBEvent.connectionClose] = 0 := by decide
    omega

/-- Witness for C3 at a concrete input: every send fails, so the failing
first call is the only send and the run fails. -/
theorem sender_sequential_sends_witness :
    mainRun listOfScientists (fun _ => true) =
      ((listOfScientists.take 1).map msgEvent ++ [SBEvent.connectionClose],
        false) ∧
    countSends (mainRun listOfScientists (fun _ => true)).1 = 1 :=
  (sender_sequential_sends listOfScientists (fun _ => true)).2 0 (by decide)
    (fun j hj => absurd hj (Nat.not_lt_zero j)) rfl

/-- C2 counterexample: when the first send call fails, the queue-client
close is never invoked (its call sits inside the `try` block, after the
loop), so it is not the case that both closes are invoked exactly once on
every run. -/
theorem main_close_not_guaranteed :
    (mainRun listOfScientists (fun i => i == 0)).2 = false ∧
    ¬ countEvent (mainRun listOfScientists (fun i => i == 0)).1
        SBEvent.queueClose = 1 := by
  decide

/-- C2 amended: the connection close (in the `finally`) is invoked exactly
once on every run; on a fully successful run the queue close is also invoked
exactly once, with the trace ending queue close first, connection close
second; but when a send fails, the queue close is not invoked at all — only
the connection close runs. -/
theorem main_close_behavior (l : List Scientist) (fail : Nat → Bool) :
    countEvent (mainRun l fail).1 SBEvent.connectionClose = 1 ∧
    ((mainRun l fail).2 = true →
      countEvent (mainRun l fail).1 SBEvent.queueClose = 1 ∧
      (mainRun l fail).1 =
        (sendAll l fail 0).1 ++ [SBEvent.queueClose, SBEvent.connectionClose]) ∧
    ((mainRun l fail).2 = false →
      countEvent (mainRun l fail).1 SBEvent.queueClose = 0) := by
  have hq := (sendAll_count_close l fail 0).1
  have hc := (sendAll_count_close l fail 0).2
  by_cases h : (sendAll l fail 0).2
  · have h1 : (mainRun l fail).1 =
        (sendAll l fail 0).1 ++ [SBEvent.queueClose, SBEvent.connectionClose] := by
      simp [mainRun, h]
    have h2 : (mainRun l fail).2 = true := by simp [mainRun, h]
    refine ⟨?_, fun _ => ⟨?_, h1⟩, fun hfalse => ?_⟩
    · rw [h1, countEvent_append, hc]; decide
    · rw [h1, countEvent_append, hq]; decide
    · rw [h2] at hfalse; exact absurd hfalse (by simp)
  · have hb : (sendAll l fail 0).2 = false := by simpa using h
    have h1 : (mainRun l fail).1 =
        (sendAll l fail 0).1 ++ [SBEvent.connectionClose] := by
      simp [mainRun, hb]
    have h2 : (mainRun l fail).2 = false := by simp [mainRun, hb]
    refine ⟨?_, fun htrue => ?_, fun _ => ?_⟩
    · rw [h1, countEvent_append, hc]; decide
    · rw [h2] at htrue; exact absurd htrue (by simp)
    · rw [h1, countEvent_append, hq]; decide

/-- Witness for C2 (amended) at a concrete input: on the all-successful run
both closes occur exactly once. -/
theorem main_close_behavior_witness :
    countEvent (mainRun listOfScientists (fun _ => false)).1
      SBEvent.connectionClose = 1 ∧
    countEvent (mainRun listOfScientists (fun _ => false)).1
      SBEvent.queueClose = 1 :=
  ⟨(main_close_behavior listOfScientists (fun _ => false)).1,
   ((main_close_behavior listOfScientists (fun _ => false)).2.1 (by decide)).1⟩

/-- C8 counterexample: the hardcoded list has 10 records, not 3, and the
all-successful run issues 10 send calls, not 3. -/
theorem main_run_not_three_sends :
    listOfScientists.length = 10 ∧
    countSends (mainRun listOfScientists (fun _ => false)).1 = 10 ∧
    ¬ (listOfScientists.length = 3 ∧
       countSends (mainRun listOfScientists (fun _ => false)).1 = 3) := by
  decide

/-- C8 amended: the list has 10 scientist records; the all-successful run
issues exactly 10 send calls whose first three bodies are "Albert Einstein",
"Werner Heisenberg", "Marie Curie", every one labelled "Scientist", in list
order, followed by the queue-client close and then the connection close. -/
theorem main_run_trace :
    mainRun listOfScientists (fun _ => false) =
      ([SBEvent.send "Albert Einstein" "Scientist",
        SBEvent.send "Werner Heisenberg" "Scientist",
        SBEvent.send "Marie Curie" "Scientist",
        SBEvent.send "Steven Hawking" "Scientist",
        SBEvent.send "Isaac Newton" "Scientist",
        SBEvent.send "Niels Bohr" "Scientist",
        SBEvent.send "Michael Faraday" "Scientist",
        SBEvent.send "Galileo Galilei" "Scientist",
        SBEvent.send "Johannes Kepler" "Scientist",
        SBEvent.send "Nikolaus Kopernikus" "Scientist",
        SBEvent.queueClose, SBEvent.connectionClose], true) := by
  decide

end SendMessages

namespace LeaseModel

/-- The two generated operation surfaces a `LeaseClient` can forward to:
`new Container(clientContext)` or `new Blob(clientContext)`. -/
inductive OpSurface
  | container
  | blob
deriving DecidableEq, Repr

/-- The conditional-access predicate (`Models.ModifiedAccessConditions`)
attached unchanged to every forwarded request; its fields are opaque to the
lease client, which never reads them. -/
structure ModifiedAccessConditions where
  ifModifiedSince : Option Nat := Option.none
  ifUnmodifiedSince : Option Nat := Option.none
  ifMatch : Option String := Option.none
  ifNoneMatch : Option String := Option.none
deriving DecidableEq, Repr

/-- An `AbortSignalLike`: either the static no-op signal `AbortSignal.none`
or a caller-supplied signal (distinguished by an id; the client never reads
into it). -/
inductive AbortSignalLike
  | noSignal
  | signal (id : Nat)
deriving DecidableEq, Repr

/-- `LeaseOperationOptions`: both members optional in the source
(`abortSignal?`, `modifiedAccessConditions?`). -/
structure LeaseOperationOptions where
  abortSignal : Option AbortSignalLike := Option.none
  modifiedAccessConditions : Option ModifiedAccessConditions := Option.none
deriving DecidableEq, Repr

/-- `options.abortSignal || AbortSignal.none`: a missing signal defaults to
the no-op signal (an `AbortSignalLike` object is always truthy in JS). -/
def defaultAborter (options : LeaseOperationOptions) : AbortSignalLike :=
  options.abortSignal.getD AbortSignalLike.noSignal

/-- The parsed lease headers of a `Lease` response. Dates are modelled as
epoch numbers; the lease client never inspects any of these fields. -/
structure Lease where
  eTag : Option String := Option.none
  lastModified : Option Nat := Option.none
  leaseId : Option String := Option.none
  leaseTime : Option Int := Option.none
  requestId : Option String := Option.none
  version : Option String := Option.none
  date : Option Nat := Option.none
  errorCode : Option String := Option.none
deriving DecidableEq, Repr

/-- A `LeaseOperationResponse`: the lease headers plus the underlying HTTP
response (modelled by its status code). Returned verbatim by the client. -/
structure LeaseOperationResponse where
  lease : Lease := {}
  status : Nat := 200
deriving DecidableEq, Repr

/-- The argument record of a forwarded
`containerOrBlobOperation.acquireLease` call: receiving surface plus the
options bag `{abortSignal, duration, modifiedAccessConditions,
proposedLeaseId}` built in `LeaseClient.acquireLease`. -/
structure AcquireLeaseForward where
  target : OpSurface
  abortSignal : AbortSignalLike
  duration : Int
  modifiedAccessConditions : Option ModifiedAccessConditions
  proposedLeaseId : String
deriving DecidableEq, Repr

/-- The argument record of a forwarded `changeLease` call: receiving
surface, the two positional arguments (current lease id, proposed lease id)
and the options bag `{abortSignal, modifiedAccessConditions}`. -/
structure ChangeLeaseForward where
  target : OpSurface
  leaseId : String
  proposedLeaseId : String
  abortSignal : AbortSignalLike
  modifiedAccessConditions : Option ModifiedAccessConditions
deriving DecidableEq, Repr

/-- The argument record of a forwarded `releaseLease` call: receiving
surface, the positional current lease id and the options bag. -/
structure ReleaseLeaseForward where
  target : OpSurface
  leaseId : String
  abortSignal : AbortSignalLike
  modifiedAccessConditions : Option ModifiedAccessConditions
deriving DecidableEq, Repr

/-- The argument record of a forwarded `renewLease` call: receiving surface,
the positional current lease id and the options bag. -/
structure RenewLeaseForward where
  target : OpSurface
  leaseId : String
  abortSignal : AbortSignalLike
  modifiedAccessConditions : Option ModifiedAccessConditions
deriving DecidableEq, Repr

/-- The `operationOptions` object built in `LeaseClient.breakLease`:
exactly `{abortSignal, breakPeriod, modifiedAccessConditions}` — note no
lease id. -/
structure BreakLeaseOperationOptions where
  abortSignal : AbortSignalLike
  breakPeriod : Int
  modifiedAccessConditions : Option ModifiedAccessConditions
deriving DecidableEq, Repr

/-- The argument record of a forwarded `breakLease` call: receiving surface
plus the `operationOptions` object. -/
structure BreakLeaseForward where
  target : OpSurface
  options : BreakLeaseOperationOptions
deriving DecidableEq, Repr

/-- The state of a `LeaseClient` handle: its three private fields. -/
structure LeaseClient where
  _leaseId : String
  _url : String
  _containerOrBlobOperation : OpSurface
deriving DecidableEq, Repr

/-- The public `leaseId` getter. -/
def LeaseClient.leaseId (c : LeaseClient) : String := c._leaseId

/-- The public `url` getter. -/
def LeaseClient.url (c : LeaseClient) : String := c._url

/-- The `ContainerClient | BlobClient` union given to the constructor,
carrying the target's url; the constructor branches on its runtime type
(`client instanceof ContainerClient`). -/
inductive ClientUnion
  | containerClient (url : String)
  | blobClient (url : String)
deriving DecidableEq, Repr

/-- The target's url, read by the constructor. -/
def ClientUnion.clientUrl : ClientUnion → String
  | ClientUnion.containerClient u => u
  | ClientUnion.blobClient u => u

/-- Modelled from the spec: `generateUuid` (from the core HTTP package,
whose source is not part of this fragment) "generate[s] a new random unique
identifier". Randomness is modelled by an external fresh-nonce source: each
construction draws a distinct nonce, and the generator maps distinct nonces
to distinct, non-empty identifier strings (probabilistic uniqueness of
UUIDs becomes injectivity in the nonce). The concrete string shape is not
observable by any claim. -/
def generateUuid (nonce : Nat) : String :=
  String.mk ('u' :: List.replicate nonce 'd')

/-- The `LeaseClient` constructor: store the target's url, pick the
operation surface by the `instanceof ContainerClient` test, and if the
supplied lease id is absent or falsy (the empty string), generate a fresh
id; otherwise keep the supplied id. -/
def LeaseClient.construct (client : ClientUnion) (leaseId : Option String)
    (nonce : Nat) : LeaseClient :=
  { _url := client.clientUrl,
    _containerOrBlobOperation :=
      match client with
      | ClientUnion.containerClient _ => OpSurface.container
      | ClientUnion.blobClient _ => OpSurface.blob,
    _leaseId :=
      match leaseId with
      | Option.none => generateUuid nonce
      | Option.some s => if s = "" then generateUuid nonce else s }

/-- The request built and forwarded by `LeaseClient.acquireLease`. -/
def LeaseClient.acquireLeaseForward (c : LeaseClient) (duration : Int)
    (options : LeaseOperationOptions) : AcquireLeaseForward :=
  { target := c._containerOrBlobOperation,
    abortSignal := defaultAborter options,
    duration := duration,
    modifiedAccessConditions := options.modifiedAccessConditions,
    proposedLeaseId := c._leaseId }

/-- `LeaseClient.acquireLease`: forward the built request to the remote
surface and return its result verbatim (a rejection propagates); no field
of the handle is assigned. -/
def LeaseClient.acquireLease (c : LeaseClient) (duration : Int)
    (options : LeaseOperationOptions)
    (remote : AcquireLeaseForward → Except String LeaseOperationResponse) :
    Except String LeaseOperationResponse × LeaseClient :=
  (remote (c.acquireLeaseForward duration options), c)

/-- The request built and forwarded by `LeaseClient.chanageLease` (the
source's spelling of the change-lease method). -/
def LeaseClient.chanageLeaseForward (c : LeaseClient)
    (proposedLeaseId : String) (options : LeaseOperationOptions) :
    ChangeLeaseForward :=
  { target := c._containerOrBlobOperation,
    leaseId := c._leaseId,
    proposedLeaseId := proposedLeaseId,
    abortSignal := defaultAborter options,
    modifiedAccessConditions := options.modifiedAccessConditions }

/-- `LeaseClient.chanageLease`: await the remote change-lease call; when it
resolves, assign `this._leaseId = proposedLeaseId` and return the response;
when it rejects, the assignment (textually after the `await`) never runs and
the error propagates with the handle unchanged. -/
def LeaseClient.chanageLease (c : LeaseClient) (proposedLeaseId : String)
    (options : LeaseOperationOptions)
    (remote : ChangeLeaseForward → Except String LeaseOperationResponse) :
    Except String LeaseOperationResponse × LeaseClient :=
  match remote (c.chanageLeaseForward proposedLeaseId options) with
  | Except.ok response =>
    (Except.ok response, { c with _leaseId := proposedLeaseId })
  | Except.error e => (Except.error e, c)

/-- The request built and forwarded by `LeaseClient.releaseLease`. -/
def LeaseClient.releaseLeaseForward (c : LeaseClient)
    (options : LeaseOperationOptions) : ReleaseLeaseForward :=
  { target := c._containerOrBlobOperation,
    leaseId := c._leaseId,
    abortSignal := defaultAborter options,
    modifiedAccessConditions := options.modifiedAccessConditions }

/-- `LeaseClient.releaseLease`: forward and return verbatim; no field of the
handle is assigned. -/
def LeaseClient.releaseLease (c : LeaseClient)
    (options : LeaseOperationOptions)
    (remote : ReleaseLeaseForward → Except String LeaseOperationResponse) :
    Except String LeaseOperationResponse × LeaseClient :=
  (remote (c.releaseLeaseForward options), c)

/-- The request built and forwarded by `LeaseClient.renewLease`. -/
def LeaseClient.renewLeaseForward (c : LeaseClient)
    (options : LeaseOperationOptions) : RenewLeaseForward :=
  { target := c._containerOrBlobOperation,
    leaseId := c._leaseId,
    abortSignal := defaultAborter options,
    modifiedAccessConditions := options.modifiedAccessConditions }

/-- `LeaseClient.renewLease`: forward and return verbatim; no field of the
handle is assigned. -/
def LeaseClient.renewLease (c : LeaseClient)
    (options : LeaseOperationOptions)
    (remote : RenewLeaseForward → Except String LeaseOperationResponse) :
    Except String LeaseOperationResponse × LeaseClient :=
  (remote (c.renewLeaseForward options), c)

/-- The request built and forwarded by `LeaseClient.breakLease`: the
`operationOptions` object holds the aborter, the break period and the
conditional-access predicate, and nothing else. -/
def LeaseClient.breakLeaseForward (c : LeaseClient) (breakPeriod : Int)
    (options : LeaseOperationOptions) : BreakLeaseForward :=
  { target := c._containerOrBlobOperation,
    options :=
      { abortSignal := defaultAborter options,
        breakPeriod := breakPeriod,
        modifiedAccessConditions := options.modifiedAccessConditions } }

/-- `LeaseClient.breakLease`: forward and return verbatim; no field of the
handle is assigned. -/
def LeaseClient.breakLease (c : LeaseClient) (breakPeriod : Int)
    (options : LeaseOperationOptions)
    (remote : BreakLeaseForward → Except String LeaseOperationResponse) :
    Except String LeaseOperationResponse × LeaseClient :=
  (remote (c.breakLeaseForward breakPeriod options), c)

/-- One call on the lease client, with its per-call arguments. -/
inductive LeaseOp
  | acquire (duration : Int) (options : LeaseOperationOptions)
  | chanage (proposedLeaseId : String) (options : LeaseOperationOptions)
  | release (options : LeaseOperationOptions)
  | renew (options : LeaseOperationOptions)
  | breakOp (breakPeriod : Int) (options : LeaseOperationOptions)
deriving DecidableEq, Repr

/-- A canonical remote behaviour: resolve with a default response when `ok`,
reject otherwise. The handle's state transition depends on nothing else of
the remote response. -/
def remoteOf {α : Type} (ok : Bool) :
    α → Except String LeaseOperationResponse :=
  fun _ => if ok then Except.ok {} else Except.error "RemoteError"

/-- Run one client call whose remote either resolves (`ok = true`) or
rejects, keeping the resulting handle state. -/
def LeaseClient.step (c : LeaseClient) : LeaseOp → Bool → LeaseClient
  | LeaseOp.acquire d o, ok => (c.acquireLease d o (remoteOf ok)).2
  | LeaseOp.chanage p o, ok => (c.chanageLease p o (remoteOf ok)).2
  | LeaseOp.release o, ok => (c.releaseLease o (remoteOf ok)).2
  | LeaseOp.renew o, ok => (c.renewLease o (remoteOf ok)).2
  | LeaseOp.breakOp bp o, ok => (c.breakLease bp o (remoteOf ok)).2

/-- Run a sequence of calls, each tagged with whether its remote call
resolved. -/
def LeaseClient.runOps (c : LeaseClient) :
    List (LeaseOp × Bool) → LeaseClient
  | [] => c
  | (op, ok) :: rest => (c.step op ok).runOps rest

/-- Stated from the spec's words, for comparison with the embedded code:
"the lease handle's `leaseId` field always reflects the last value accepted
by the remote service for a change-lease call" — the id a call history
should leave on the handle: the initial id until the first successful
change-lease call, then the proposed id of the most recent successful
change-lease call. -/
def specLastAcceptedId (init : String) : List (LeaseOp × Bool) → String
  | [] => init
  | (LeaseOp.chanage p _, ok) :: rest =>
    specLastAcceptedId (if ok then p else init) rest
  | _ :: rest => specLastAcceptedId init rest

theorem LeaseClient.step_url (c : LeaseClient) (op : LeaseOp) (ok : Bool) :
    (c.step op ok)._url = c._url := by
  cases op <;> cases ok <;>
    simp [LeaseClient.step, LeaseClient.acquireLease, LeaseClient.chanageLease,
      LeaseClient.releaseLease, LeaseClient.renewLease, LeaseClient.breakLease,
      remoteOf]

theorem LeaseClient.step_surface (c : LeaseClient) (op : LeaseOp)
    (ok : Bool) :
    (c.step op ok)._containerOrBlobOperation = c._containerOrBlobOperation := by
  cases op <;> cases ok <;>
    simp [LeaseClient.step, LeaseClient.acquireLease, LeaseClient.chanageLease,
      LeaseClient.releaseLease, LeaseClient.renewLease, LeaseClient.breakLease,
      remoteOf]

theorem LeaseClient.step_leaseId (c : LeaseClient) (op : LeaseOp)
    (ok : Bool) :
    (c.step op ok)._leaseId =
      match op with
      | LeaseOp.chanage p _ => if ok then p else c._leaseId
      | _ => c._leaseId := by
  cases op <;> cases ok <;>
    simp [LeaseClient.step, LeaseClient.acquireLease, LeaseClient.chanageLease,
      LeaseClient.releaseLease, LeaseClient.renewLease, LeaseClient.breakLease,
      remoteOf]

/-- The generated id is never the empty string. -/
theorem generateUuid_ne_empty (n : Nat) : generateUuid n ≠ "" := by
  intro h
  have h2 : ('u' :: List.replicate n 'd') = ([] : List Char) := by
    simpa [generateUuid] using congrArg String.data h
  exact List.cons_ne_nil _ _ h2

/-- Distinct nonces give distinct generated ids. -/
theorem generateUuid_injective : Function.Injective generateUuid := by
  intro a b h
  have h2 : ('u' :: List.replicate a 'd') = ('u' :: List.replicate b 'd') := by
    simpa [generateUuid] using congrArg String.data h
  have h3 := congrArg List.length h2
  simpa using h3

/-- C1: when the forwarded remote change-lease call resolves, the handle's
`_leaseId` becomes the proposed id and the subsequent acquire, release and
renew calls forward that new id; when it rejects, the handle's `_leaseId`
is unchanged and subsequent calls forward the previously held id. -/
theorem chanageLease_state_transition (c : LeaseClient) (p : String)
    (options : LeaseOperationOptions)
    (remote : ChangeLeaseForward → Except String LeaseOperationResponse)
    (d : Int) (o₁ o₂ o₃ : LeaseOperationOptions) :
    (∀ resp, (c.chanageLease p options remote).1 = Except.ok resp →
      (c.chanageLease p options remote).2._leaseId = p ∧
      ((c.chanageLease p options remote).2.acquireLeaseForward d
          o₁).proposedLeaseId = p ∧
      ((c.chanageLease p options remote).2.releaseLeaseForward o₂).leaseId = p ∧
      ((c.chanageLease p options remote).2.renewLeaseForward o₃).leaseId = p) ∧
    (∀ e, (c.chanageLease p options remote).1 = Except.error e →
      (c.chanageLease p options remote).2._leaseId = c._leaseId ∧
      ((c.chanageLease p options remote).2.acquireLeaseForward d
          o₁).proposedLeaseId = c._leaseId ∧
      ((c.chanageLease p options remote).2.releaseLeaseForward o₂).leaseId =
        c._leaseId ∧
      ((c.chanageLease p options remote).2.renewLeaseForward o₃).leaseId =
        c._leaseId) := by
  cases h : remote (c.chanageLeaseForward p options) <;>
    simp [LeaseClient.chanageLease, h, LeaseClient.acquireLeaseForward,
      LeaseClient.releaseLeaseForward, LeaseClient.renewLeaseForward]

/-- Witness for C1 at a concrete input: a resolving remote changes the held
id to the proposed one. -/
theorem chanageLease_state_transition_witness :
    ((LeaseClient.construct (ClientUnion.containerClient "https")
        (Option.some "id0") 0).chanageLease "newid" {}
        (fun _ => Except.ok {})).2._leaseId = "newid" ∧
    (((LeaseClient.construct (ClientUnion.containerClient "https")
        (Option.some "id0") 0).chanageLease "newid" {}
        (fun _ => Except.ok {})).2.renewLeaseForward {}).leaseId = "newid" :=
  ⟨((chanageLease_state_transition
      (LeaseClient.construct (ClientUnion.containerClient "https")
        (Option.some "id0") 0) "newid" {} (fun _ => Except.ok {})
      15 {} {} {}).1 {} rfl).1,
   ((chanageLease_state_transition
      (LeaseClient.construct (ClientUnion.containerClient "https")
        (Option.some "id0") 0) "newid" {} (fun _ => Except.ok {})
      15 {} {} {}).1 {} rfl).2.2.2⟩

/-- C4: every operation other than the change-lease call leaves the handle
completely unchanged, on success and on failure alike; and over any call
history the handle's `_leaseId` equals the id fixed at construction until
the first successful change-lease call, thereafter the proposed id of the
most recent successful one (`specLastAcceptedId`), with `_url` never
changing. -/
theorem lease_frame_and_id_history :
    (∀ (c : LeaseClient) (op : LeaseOp) (ok : Bool),
      (∀ p o, op ≠ LeaseOp.chanage p o) → c.step op ok = c) ∧
    (∀ (c : LeaseClient) (ops : List (LeaseOp × Bool)),
      (c.runOps ops)._leaseId = specLastAcceptedId c._leaseId ops ∧
      (c.runOps ops)._url = c._url) := by
  constructor
  · intro c op ok h
    cases op with
    | acquire d o => rfl
    | chanage p o => exact absurd rfl (h p o)
    | release o => rfl
    | renew o => rfl
    | breakOp bp o => rfl
  · intro c ops
    induction ops generalizing c with
    | nil => exact ⟨rfl, rfl⟩
    | cons hd rest ih =>
      obtain ⟨op, ok⟩ := hd
      have hrec := ih (c.step op ok)
      refine ⟨?_, ?_⟩
      · show ((c.step op ok).runOps rest)._leaseId = _
        rw [hrec.1, LeaseClient.step_leaseId]
        cases op <;> simp [specLastAcceptedId]
      · show ((c.step op ok).runOps rest)._url = _
        rw [hrec.2, LeaseClient.step_url]

/-- Witness for C4 at a concrete input: a failed release call leaves the
handle unchanged. -/
theorem lease_frame_witness :
    (LeaseClient.construct (ClientUnion.blobClient "b") (Option.some "L")
        0).step (LeaseOp.release {}) false =
      LeaseClient.construct (ClientUnion.blobClient "b") (Option.some "L") 0 :=
  lease_frame_and_id_history.1
    (LeaseClient.construct (ClientUnion.blobClient "b") (Option.some "L") 0)
    (LeaseOp.release {}) false (fun _ _ h => LeaseOp.noConfusion h)

/-- C5: a container-typed client selects the container operation surface
and a blob-typed client the blob surface, at construction; every one of the
five operations forwards to the handle's selected surface; and no call
history ever changes the selected surface. -/
theorem surface_selection :
    (∀ u lid nonce,
      (LeaseClient.construct (ClientUnion.containerClient u) lid
          nonce)._containerOrBlobOperation = OpSurface.container) ∧
    (∀ u lid nonce,
      (LeaseClient.construct (ClientUnion.blobClient u) lid
          nonce)._containerOrBlobOperation = OpSurface.blob) ∧
    (∀ (c : LeaseClient) (d : Int) (o : LeaseOperationOptions),
      (c.acquireLeaseForward d o).target = c._containerOrBlobOperation) ∧
    (∀ (c : LeaseClient) (p : String) (o : LeaseOperationOptions),
      (c.chanageLeaseForward p o).target = c._containerOrBlobOperation) ∧
    (∀ (c : LeaseClient) (o : LeaseOperationOptions),
      (c.releaseLeaseForward o).target = c._containerOrBlobOperation) ∧
    (∀ (c : LeaseClient) (o : LeaseOperationOptions),
      (c.renewLeaseForward o).target = c._containerOrBlobOperation) ∧
    (∀ (c : LeaseClient) (bp : Int) (o : LeaseOperationOptions),
      (c.breakLeaseForward bp o).target = c._containerOrBlobOperation) ∧
    (∀ (c : LeaseClient) (ops : List (LeaseOp × Bool)),
      (c.runOps ops)._containerOrBlobOperation =
        c._containerOrBlobOperation) := by
  refine ⟨fun u lid nonce => rfl, fun u lid nonce => rfl,
    fun c d o => rfl, fun c p o => rfl, fun c o => rfl, fun c o => rfl,
    fun c bp o => rfl, fun c ops => ?_⟩
  induction ops generalizing c with
  | nil => rfl
  | cons hd rest ih =>
    obtain ⟨op, ok⟩ := hd
    show ((c.step op ok).runOps rest)._containerOrBlobOperation = _
    rw [ih (c.step op ok), LeaseClient.step_surface]

/-- C6: the acquire operation forwards the caller's duration unvalidated
(whatever integer it is, including values outside 15–60 and other than -1),
uses the handle's current `_leaseId` as the forwarded proposed lease id,
builds exactly the options bag of the source, returns the remote response
verbatim, and leaves the handle unchanged. -/
theorem acquireLease_forwarding (c : LeaseClient) (duration : Int)
    (options : LeaseOperationOptions)
    (remote : AcquireLeaseForward → Except String LeaseOperationResponse) :
    (c.acquireLeaseForward duration options).duration = duration ∧
    (c.acquireLeaseForward duration options).proposedLeaseId = c._leaseId ∧
    c.acquireLeaseForward duration options =
      { target := c._containerOrBlobOperation,
        abortSignal := defaultAborter options,
        duration := duration,
        modifiedAccessConditions := options.modifiedAccessConditions,
        proposedLeaseId := c._leaseId } ∧
    (c.acquireLease duration options remote).1 =
      remote (c.acquireLeaseForward duration options) ∧
    (c.acquireLease duration options remote).2 = c :=
  ⟨rfl, rfl, rfl, rfl, rfl⟩

/-- C7: constructing without an explicit lease id yields a non-empty
generated id, and constructions drawing distinct fresh nonces yield
distinct ids. -/
theorem generated_id_fresh :
    (∀ (client : ClientUnion) (nonce : Nat),
      (LeaseClient.construct client Option.none nonce)._leaseId ≠ "") ∧
    (∀ (client₁ client₂ : ClientUnion) (n₁ n₂ : Nat), n₁ ≠ n₂ →
      (LeaseClient.construct client₁ Option.none n₁)._leaseId ≠
        (LeaseClient.construct client₂ Option.none n₂)._leaseId) := by
  constructor
  · intro client nonce
    exact generateUuid_ne_empty nonce
  · intro client₁ client₂ n₁ n₂ hne h
    exact hne (generateUuid_injective h)

/-- Witness for C7 at concrete inputs: nonces 0 and 1 give a non-empty id
and distinct ids. -/
theorem generated_id_fresh_witness :
    (LeaseClient.construct (ClientUnion.containerClient "c") Option.none
        0)._leaseId ≠ "" ∧
    (LeaseClient.construct (ClientUnion.containerClient "c") Option.none
        0)._leaseId ≠
      (LeaseClient.construct (ClientUnion.blobClient "c") Option.none
        1)._leaseId :=
  ⟨generated_id_fresh.1 (ClientUnion.containerClient "c") 0,
   generated_id_fresh.2 (ClientUnion.containerClient "c")
     (ClientUnion.blobClient "c") 0 1 (by decide)⟩

/-- C9: a supplied empty-string lease id is falsy, so the constructor
replaces it with the freshly generated id, and consequently no construction
ever leaves an empty `_leaseId` on the handle. -/
theorem empty_id_replaced :
    (∀ (client : ClientUnion) (nonce : Nat),
      (LeaseClient.construct client (Option.some "") nonce)._leaseId =
        generateUuid nonce) ∧
    (∀ (client : ClientUnion) (lid : Option String) (nonce : Nat),
      (LeaseClient.construct client lid nonce)._leaseId ≠ "") := by
  constructor
  · intro client nonce
    simp [LeaseClient.construct]
  · intro client lid nonce
    cases lid with
    | none => exact generateUuid_ne_empty nonce
    | some s =>
      by_cases hs : s = ""
      · subst hs
        simpa [LeaseClient.construct] using generateUuid_ne_empty nonce
      · simp [LeaseClient.construct, hs]

/-- C10: the options object forwarded by the break operation holds exactly
the defaulted abort signal, the break period and the conditional-access
predicate — no lease id — so two handles agreeing on surface and url but
holding different lease ids forward identical break requests. -/
theorem breakLease_ignores_leaseId (c₁ c₂ : LeaseClient) (bp : Int)
    (options : LeaseOperationOptions)
    (hsurf : c₁._containerOrBlobOperation = c₂._containerOrBlobOperation)
    (_hurl : c₁._url = c₂._url) :
    (c₁.breakLeaseForward bp options).options =
      { abortSignal := defaultAborter options, breakPeriod := bp,
        modifiedAccessConditions := options.modifiedAccessConditions } ∧
    c₁.breakLeaseForward bp options = c₂.breakLeaseForward bp options := by
  constructor
  · rfl
  · simp [LeaseClient.breakLeaseForward, hsurf]

/-- Witness for C10 at a concrete input: two handles differing only in
their lease id forward the same break request. -/
theorem breakLease_ignores_leaseId_witness :
    ({ _leaseId := "a", _url := "u",
        _containerOrBlobOperation := OpSurface.blob } :
      LeaseClient).breakLeaseForward 5 {} =
    ({ _leaseId := "b", _url := "u",
        _containerOrBlobOperation := OpSurface.blob } :
      LeaseClient).breakLeaseForward 5 {} :=
  (breakLease_ignores_leaseId
    { _leaseId := "a", _url := "u",
      _containerOrBlobOperation := OpSurface.blob }
    { _leaseId := "b", _url := "u",
      _containerOrBlobOperation := OpSurface.blob } 5 {} rfl rfl).2

end LeaseModel
